import Mathlib

/-!
Shallow embedding of `src/cli.hpp` (a tiny command-line dispatch helper):
the `command_base` interface, the `commandlineinterpreter` dispatcher with
its `run` / `get<int>` / `clear` / `help` operations, and `std::stoi`.

Modelling conventions:
* `command_base*` pointers become `Option command_base`; a C++ null pointer
  is `none`, and dereferencing `none` (undefined behavior) makes the
  surrounding operation return `none` at the `Option` level.
* Console output is modelled as an ordered list of `outLine` values, one per
  printed diagnostic / help item.
* A C++ exception escaping a call (here: the parse errors thrown by
  `std::stoi`) is modelled with `Except parseErr`; `run` has no handler, so
  an error value produced by the invoked command propagates to `run`'s
  result unchanged.
* `int` is modelled as the mathematical integers, with the explicit
  32-bit range check `[-2147483648, 2147483647]` where `std::stoi` performs
  it (`int` is 32 bits wide on the mainstream ILP32/LP64/LLP64 platforms).
-/

/-- Parse errors thrown by the `std::stoi` family: `std::invalid_argument`
when no digits can be parsed, `std::out_of_range` when the parsed value does
not fit in the target type. -/
inductive parseErr : Type
  | invalid_argument : parseErr
  | out_of_range : parseErr
deriving DecidableEq

/-- C locale `isspace`, as used by `strtol` (which underlies `std::stoi`):
space, tab, newline, vertical tab, form feed, carriage return. -/
def is_cspace (c : Char) : Bool :=
  c.toNat = 32 || c.toNat = 9 || c.toNat = 10 || c.toNat = 11 || c.toNat = 12 || c.toNat = 13

/-- C locale `isdigit`: the ASCII decimal digits `'0'..'9'`. -/
def is_digit_ch (c : Char) : Bool :=
  48 ≤ c.toNat && c.toNat ≤ 57

/-- Numeric value of an ASCII decimal digit. -/
def digit_val (c : Char) : Nat := c.toNat - 48

/-- Digit-accumulation phase of `std::stoi` after the optional sign: take the
longest digit prefix; no digit at all throws `std::invalid_argument`, a value
outside the 32-bit `int` range throws `std::out_of_range`. -/
def stoi_core (sgn : Int) (cs : List Char) : Except parseErr Int :=
  let ds := cs.takeWhile is_digit_ch
  if ds.isEmpty then Except.error parseErr.invalid_argument
  else
    let v : Int := sgn * ((ds.foldl (fun a c => 10 * a + digit_val c) 0 : Nat) : Int)
    if v < -2147483648 || 2147483647 < v then Except.error parseErr.out_of_range
    else Except.ok v

/-- `std::stoi` (base 10): skip leading C whitespace, read an optional
`'-'`/`'+'` sign, then digits. -/
def stoi (s : String) : Except parseErr Int :=
  match s.data.dropWhile is_cspace with
  | [] => stoi_core 1 []
  | c :: rest =>
      if c = '-' then stoi_core (-1) rest
      else if c = '+' then stoi_core 1 rest
      else stoi_core 1 (c :: rest)

/-- The abstract command interface `command_base<_Elem>` (instantiated at
`_Elem = char`, so strings are plain `String`): a concrete command supplies
its name (`command()`), its argument count (C++ `int`, hence `Int`), its
per-index argument display name, and its `run` entry point.  In the source,
`run` receives the interpreter pointer and can observe only the argument
vector through it (via `get`); it returns `bool`, and may instead let a
parse exception escape, hence `Except parseErr Bool`. -/
structure command_base : Type where
  command : String
  argumentCount : Int
  argumentName : Int → String
  run : List String → Except parseErr Bool

/-- The dispatcher state `commandlineinterpreter<_Elem>`: the registered
command pointers `commands_` (in registration order) and the process
argument vector (`argc_` is `argv_.length`). -/
structure commandlineinterpreter : Type where
  commands_ : List (Option command_base)
  argv_ : List String

/-- One printed console line: the two `printf` diagnostics of `run`, or a
line of `help` text. -/
inductive outLine : Type
  | unknown : String → outLine
  | wrongCount : String → outLine
  | text : String → outLine
deriving DecidableEq

/-- The `__DATE__` compile-time constant; its value is irrelevant to every
dispatch property, so it is modelled as a fixed string. -/
def build_date : String := "Feb  5 2014"

/-- The `__TIME__` compile-time constant, modelled as a fixed string. -/
def build_time : String := "12:00:00"

/-- The text `help()` emits before the command listing:
`"built " << __DATE__ << " " << __TIME__ << endl << endl << "Commands:" << endl`. -/
def build_marker : String :=
  "built " ++ build_date ++ " " ++ build_time ++ "\n\nCommands:"

/-- The help text printed for a list of (live) commands: the build marker,
then for each command in registration order its name and, for indices
`0 ≤ i < argumentCount()`, the argument name wrapped in angle brackets
(the loop `for (int i = 0; i < c->argumentCount(); i++)` runs over no
indices when `argumentCount() ≤ 0`, hence `Int.toNat`). -/
def help_lines (cmds : List command_base) : List outLine :=
  outLine.text build_marker ::
    cmds.map (fun c =>
      outLine.text (c.command ++ " " ++
        String.join ((List.range c.argumentCount.toNat).map
          (fun i => "<" ++ c.argumentName ((i : Nat) : Int) ++ "> "))))

/-- Dereference every pointer of the registry; a null entry is undefined
behavior (`none`). -/
def deref_all : List (Option command_base) → Option (List command_base)
  | [] => some []
  | none :: _ => none
  | some c :: rest => (deref_all rest).map (fun l => c :: l)

/-- The `std::find_if` call of `run`, searching the registry front to back
for the first entry whose `command()` equals `name` (`string::compare == 0`,
i.e. exact, case-sensitive equality); `k` is the registry index of the first
entry still to be examined.  The inner `Option` is the found iterator
(`none` = reached `end()`, command unknown); the outer `none` marks the
undefined behavior of calling `command()` through a null pointer. -/
def find_from : List (Option command_base) → String → Nat → Option (Option (Nat × command_base))
  | [], _, _ => some none
  | none :: _, _, _ => none
  | some c :: rest, name, k =>
      if c.command = name then some (some (k, c)) else find_from rest name (k + 1)

/-- Search the whole registry, starting at index 0. -/
def find_command (reg : List (Option command_base)) (name : String) :
    Option (Option (Nat × command_base)) :=
  find_from reg name 0

deriving instance DecidableEq for Except

/-- The observable outcome of one `run()` call: the returned exit code (or
the parse error that escaped uncaught), the printed lines in order, and the
registry indices of the commands whose `run` was invoked, in order. -/
structure runResult : Type where
  exit : Except parseErr Int
  output : List outLine
  invoked : List Nat
deriving DecidableEq

namespace commandlineinterpreter

/-- `register_command`: append the command pointer to the registry. -/
def register_command (st : commandlineinterpreter) (c : command_base) :
    commandlineinterpreter :=
  commandlineinterpreter.mk (st.commands_ ++ [some c]) st.argv_

/-- `clear()`: `delete` every registry entry and overwrite it with
`nullptr`; the vector itself keeps its size. -/
def clear (st : commandlineinterpreter) : commandlineinterpreter :=
  commandlineinterpreter.mk (st.commands_.map (fun _ => none)) st.argv_

/-- `help()`: print the build marker, then each registered command's usage
line.  The loop body dereferences every registry entry, so a null entry is
undefined behavior (`none`). -/
def help (st : commandlineinterpreter) : Option (List outLine) :=
  (deref_all st.commands_).map help_lines

/-- `run()`: fewer than 2 arguments prints help and returns 1; otherwise
linear-search the registry for `argv_[1]` (unknown name: diagnostic + help,
return 1), check `argumentCount() == argc_ - 2` (mismatch: diagnostic +
help, return 1), and finally invoke the matched command's `run`, mapping
`true` to exit code 0 and `false` to 1, and letting an escaping parse error
through (there is no handler in `run`). -/
def run (st : commandlineinterpreter) : Option runResult :=
  if st.argv_.length < 2 then
    (help st).map (fun h => runResult.mk (Except.ok 1) h [])
  else
    let argc : Int := (st.argv_.length : Int) - 2
    let command : String := st.argv_.getD 1 ""
    match find_command st.commands_ command with
    | none => none
    | some none =>
        (help st).map (fun h => runResult.mk (Except.ok 1) (outLine.unknown command :: h) [])
    | some (some (i, c)) =>
        if c.argumentCount ≠ argc then
          (help st).map (fun h => runResult.mk (Except.ok 1) (outLine.wrongCount command :: h) [])
        else
          match c.run st.argv_ with
          | Except.error e => some (runResult.mk (Except.error e) [] [i])
          | Except.ok true => some (runResult.mk (Except.ok 0) [] [i])
          | Except.ok false => some (runResult.mk (Except.ok 1) [] [i])

/-- `get<int>(index)`: `std::stoi(argv_[index + 2])`.  A negative C++
`index` would be out-of-bounds undefined behavior, so the model takes a
`Nat`; positions beyond `argv_` are likewise out of scope and default to
`""` here (every claim constrains `index + 2` to lie inside `argv_`). -/
def get_int (st : commandlineinterpreter) (index : Nat) : Except parseErr Int :=
  stoi (st.argv_.getD (index + 2) "")

end commandlineinterpreter

/-- A minimal concrete command (name `"x"`, no arguments, succeeding `run`)
used to instantiate the theorems at concrete inputs. -/
def dummy_cmd : command_base :=
  command_base.mk "x" 0 (fun _ => "") (fun _ => Except.ok true)

/-! ### Helper lemmas -/

/-- A registry of live (non-null) pointers dereferences to its commands. -/
theorem deref_all_map_some (cmds : List command_base) :
    deref_all (cmds.map some) = some cmds := by
  induction cmds with
  | nil => rfl
  | cons c rest ih => simp [deref_all, ih]

/-- `help` on a registry of live pointers prints `help_lines`. -/
theorem help_map_some (cmds : List command_base) (argv : List String) :
    commandlineinterpreter.help (commandlineinterpreter.mk (cmds.map some) argv) =
      some (help_lines cmds) := by
  simp [commandlineinterpreter.help, deref_all_map_some]

/-- When no registered command bears the requested name, the linear search
reaches `end()` and reports no match. -/
theorem find_from_map_some_none (cmds : List command_base) (name : String)
    (hno : ∀ c ∈ cmds, c.command ≠ name) :
    ∀ k, find_from (cmds.map some) name k = some none := by
  induction cmds with
  | nil => intro k; rfl
  | cons c rest ih =>
      intro k
      have hc : ¬ c.command = name := hno c (List.mem_cons_self c rest)
      simp only [List.map_cons, find_from, if_neg hc]
      exact ih (fun d hd => hno d (List.mem_cons_of_mem c hd)) (k + 1)

/-- The linear search returns the first registry entry whose name matches:
if `c` sits at index `i`, has the requested name, and every earlier entry
has a different name, the search started at offset `k` finds `(k + i, c)`. -/
theorem find_from_first (cmds : List command_base) (name : String) (i : Nat)
    (c : command_base)
    (hget : cmds[i]? = some c) (hname : c.command = name)
    (hfirst : ∀ j, j < i → ∀ d, cmds[j]? = some d → d.command ≠ name) :
    ∀ k, find_from (cmds.map some) name k = some (some (k + i, c)) := by
  induction cmds generalizing i with
  | nil => simp at hget
  | cons c0 rest ih =>
      intro k
      cases i with
      | zero =>
          simp only [List.getElem?_cons_zero, Option.some.injEq] at hget
          subst hget
          simp [find_from, hname]
      | succ j =>
          have h0 : c0.command ≠ name :=
            hfirst 0 (Nat.succ_pos j) c0 (by simp)
          simp only [List.getElem?_cons_succ] at hget
          simp only [List.map_cons, find_from, if_neg h0]
          rw [show k + (j + 1) = (k + 1) + j by omega]
          exact ih j hget
            (fun j' hj' d hd => hfirst (j' + 1) (Nat.succ_lt_succ hj') d (by simpa using hd)) (k + 1)

/-- The successful dispatch path of `run`: `argv = [prog, name, a1..an]`,
the first matching command sits at registry index `i`, its arity equals the
number of supplied arguments, and its `run` returns `b`; the dispatcher
invokes exactly that command once and maps `b` to the exit code. -/
theorem run_dispatch_of_first (cmds : List command_base) (prog name : String)
    (args : List String) (i : Nat) (c : command_base) (b : Bool)
    (hget : cmds[i]? = some c) (hname : c.command = name)
    (hfirst : ∀ j, j < i → ∀ d, cmds[j]? = some d → d.command ≠ name)
    (harity : c.argumentCount = (args.length : Int))
    (hrun : c.run (prog :: name :: args) = Except.ok b) :
    commandlineinterpreter.run
        (commandlineinterpreter.mk (cmds.map some) (prog :: name :: args)) =
      some (runResult.mk (Except.ok (if b then 0 else 1)) [] [i]) := by
  have hlen : ¬ (prog :: name :: args).length < 2 := by
    simp [List.length_cons]
  have hfind : find_command (cmds.map some) name = some (some (i, c)) := by
    simpa using find_from_first cmds name i c hget hname hfirst 0
  have hargc : c.argumentCount = ((prog :: name :: args).length : Int) - 2 := by
    simp only [List.length_cons]
    push_cast
    omega
  simp only [commandlineinterpreter.run, hlen, if_false]
  simp only [List.getD_cons_succ, List.getD_cons_zero, hfind]
  rw [if_neg (by simpa using hargc)]
  rw [hrun]
  cases b <;> rfl

/-! ### Claims -/

/-- Claim C7: for every argv with fewer than two entries (no subcommand
token), `run()` prints exactly the help listing — which contains no
diagnostic line — and returns 1, invoking no command. -/
theorem C7_run_without_subcommand_prints_help_only
    (cmds : List command_base) (argv : List String) (h : argv.length < 2) :
    commandlineinterpreter.run (commandlineinterpreter.mk (cmds.map some) argv) =
      some (runResult.mk (Except.ok 1) (help_lines cmds) []) ∧
    ∀ l ∈ help_lines cmds, ∀ s, l ≠ outLine.unknown s ∧ l ≠ outLine.wrongCount s := by
  constructor
  · simp [commandlineinterpreter.run, h, help_map_some]
  · intro l hl s
    simp only [help_lines, List.mem_cons, List.mem_map] at hl
    rcases hl with rfl | ⟨c, _, rfl⟩ <;> exact ⟨by simp, by simp⟩

/-- Witness for C7 at a concrete dispatcher state. -/
theorem C7_witness :
    commandlineinterpreter.run
        (commandlineinterpreter.mk ([dummy_cmd].map some) ["prog"]) =
      some (runResult.mk (Except.ok 1) (help_lines [dummy_cmd]) []) ∧
    ∀ l ∈ help_lines [dummy_cmd], ∀ s, l ≠ outLine.unknown s ∧ l ≠ outLine.wrongCount s :=
  C7_run_without_subcommand_prints_help_only [dummy_cmd] ["prog"] (by decide)

/-- Claim C8: `help()` prints the build marker line followed by, for each
registered command in registration order, its name and its argument labels
for indices `0, …, arity()-1`, each label wrapped in angle brackets. -/
theorem C8_help_prints_marker_then_usage_lines
    (cmds : List command_base) (argv : List String) :
    commandlineinterpreter.help (commandlineinterpreter.mk (cmds.map some) argv) =
      some (outLine.text build_marker ::
        cmds.map (fun c =>
          outLine.text (c.command ++ " " ++
            String.join ((List.range c.argumentCount.toNat).map
              (fun i => "<" ++ c.argumentName ((i : Nat) : Int) ++ "> "))))) := by
  rw [help_map_some]
  rfl

/-- Claim C9: `clear()` keeps the registry vector's length unchanged and
overwrites every entry with a null pointer; no entry is removed. -/
theorem C9_clear_nulls_entries_keeps_length (st : commandlineinterpreter) :
    (commandlineinterpreter.clear st).commands_.length = st.commands_.length ∧
    ∀ e ∈ (commandlineinterpreter.clear st).commands_, e = none := by
  refine ⟨by simp [commandlineinterpreter.clear], ?_⟩
  intro e he
  simp only [commandlineinterpreter.clear, List.mem_map] at he
  obtain ⟨_, _, rfl⟩ := he
  rfl

/-- Witness for C9 at a concrete dispatcher state. -/
theorem C9_witness :
    (commandlineinterpreter.clear
        (commandlineinterpreter.mk [some dummy_cmd, none] ["p"])).commands_.length =
      (commandlineinterpreter.mk [some dummy_cmd, none] ["p"]).commands_.length ∧
    ∀ e ∈ (commandlineinterpreter.clear
        (commandlineinterpreter.mk [some dummy_cmd, none] ["p"])).commands_, e = none :=
  C9_clear_nulls_entries_keeps_length (commandlineinterpreter.mk [some dummy_cmd, none] ["p"])

/-- Counterexample to claim C4: with one registered command, `run()` after
`clear()` does NOT behave like a dispatcher that never had commands
registered.  The cleared registry still holds a (now null) entry, so `run`
dereferences a null pointer — undefined behavior (`none`) — whereas the
truly empty dispatcher takes the unknown-command path and returns 1. -/
theorem C4_cex_run_after_clear_is_ub :
    commandlineinterpreter.run
        (commandlineinterpreter.clear
          (commandlineinterpreter.mk [some dummy_cmd] ["p", "x"])) = none ∧
    commandlineinterpreter.run (commandlineinterpreter.mk [] ["p", "x"]) =
      some (runResult.mk (Except.ok 1)
        [outLine.unknown "x", outLine.text build_marker] []) ∧
    commandlineinterpreter.run
        (commandlineinterpreter.clear
          (commandlineinterpreter.mk [some dummy_cmd] ["p", "x"])) ≠
      commandlineinterpreter.run (commandlineinterpreter.mk [] ["p", "x"]) := by
  refine ⟨rfl, rfl, ?_⟩
  decide

/-- Claim C4 (amended): `clear()` is idempotent, and on a dispatcher whose
registry was already empty a `run()` after `clear()` coincides with a run
with no commands registered; but whenever at least one command had been
registered, `run()` after `clear()` dereferences a null registry entry
(undefined behavior) instead of taking the unknown-command or
missing-subcommand path. -/
theorem C4_clear_idempotent_run_after_clear :
    (∀ st, commandlineinterpreter.clear (commandlineinterpreter.clear st) =
      commandlineinterpreter.clear st) ∧
    (∀ argv : List String,
      commandlineinterpreter.run
          (commandlineinterpreter.clear (commandlineinterpreter.mk [] argv)) =
        commandlineinterpreter.run (commandlineinterpreter.mk [] argv)) ∧
    (∀ st : commandlineinterpreter, st.commands_ ≠ [] →
      commandlineinterpreter.run (commandlineinterpreter.clear st) = none) := by
  refine ⟨?_, ?_, ?_⟩
  · intro st
    simp [commandlineinterpreter.clear, List.map_map]
  · intro argv
    rfl
  · intro st hne
    obtain ⟨o, rest, hcons⟩ : ∃ o rest, st.commands_ = o :: rest := by
      cases h : st.commands_ with
      | nil => exact absurd h hne
      | cons o rest => exact ⟨o, rest, rfl⟩
    simp only [commandlineinterpreter.run, commandlineinterpreter.clear,
      commandlineinterpreter.help, hcons, List.map_cons, deref_all, find_command, find_from]
    split <;> rfl

/-- Witness for C4 (amended), applying the null-dereference conjunct at a
concrete dispatcher state. -/
theorem C4_witness :
    commandlineinterpreter.run
        (commandlineinterpreter.clear
          (commandlineinterpreter.mk [some dummy_cmd, none] ["p", "y", "z"])) = none :=
  C4_clear_idempotent_run_after_clear.2.2
    (commandlineinterpreter.mk [some dummy_cmd, none] ["p", "y", "z"]) (by simp)

/-- Claim C3: when the second argument matches no registered command's
name, `run()` prints the unknown-command diagnostic followed by the help
listing, returns 1, and invokes no command. -/
theorem C3_unknown_command_prints_diag_and_help
    (cmds : List command_base) (argv : List String)
    (h2 : 2 ≤ argv.length)
    (hno : ∀ c ∈ cmds, c.command ≠ argv.getD 1 "") :
    commandlineinterpreter.run (commandlineinterpreter.mk (cmds.map some) argv) =
      some (runResult.mk (Except.ok 1)
        (outLine.unknown (argv.getD 1 "") :: help_lines cmds) []) := by
  have hlen : ¬ argv.length < 2 := by omega
  have hfind : find_command (cmds.map some) (argv[1]?.getD "") = some none := by
    rw [← List.getD_eq_getElem?_getD]
    exact find_from_map_some_none cmds (argv.getD 1 "") hno 0
  simp [commandlineinterpreter.run, hlen, hfind, help_map_some]

/-- Witness for C3 at a concrete dispatcher state. -/
theorem C3_witness :
    commandlineinterpreter.run
        (commandlineinterpreter.mk ([dummy_cmd].map some) ["prog", "mul", "3"]) =
      some (runResult.mk (Except.ok 1)
        (outLine.unknown (["prog", "mul", "3"].getD 1 "") :: help_lines [dummy_cmd]) []) :=
  C3_unknown_command_prints_diag_and_help [dummy_cmd] ["prog", "mul", "3"]
    (by decide) (by decide)

/-- Claim C2: when the first registered command matching `argv[1]` declares
an arity different from the number of supplied positional arguments
(`argc - 2`), `run()` prints the wrong-argument-count diagnostic followed
by the help listing, returns 1, and invokes no command's `run`. -/
theorem C2_arity_mismatch_prints_diag_and_help
    (cmds : List command_base) (argv : List String) (i : Nat) (c : command_base)
    (h2 : 2 ≤ argv.length)
    (hget : cmds[i]? = some c)
    (hname : c.command = argv.getD 1 "")
    (hfirst : ∀ j, j < i → ∀ d, cmds[j]? = some d → d.command ≠ argv.getD 1 "")
    (hwrong : c.argumentCount ≠ (argv.length : Int) - 2) :
    commandlineinterpreter.run (commandlineinterpreter.mk (cmds.map some) argv) =
      some (runResult.mk (Except.ok 1)
        (outLine.wrongCount (argv.getD 1 "") :: help_lines cmds) []) := by
  have hlen : ¬ argv.length < 2 := by omega
  have hfind : find_command (cmds.map some) (argv[1]?.getD "") = some (some (i, c)) := by
    rw [← List.getD_eq_getElem?_getD]
    simpa using find_from_first cmds (argv.getD 1 "") i c hget hname hfirst 0
  simp [commandlineinterpreter.run, hlen, hfind, hwrong, help_map_some]

/-- Witness for C2: `dummy_cmd` has arity 0 but one positional argument is
supplied. -/
theorem C2_witness :
    commandlineinterpreter.run
        (commandlineinterpreter.mk ([dummy_cmd].map some) ["prog", "x", "extra"]) =
      some (runResult.mk (Except.ok 1)
        (outLine.wrongCount (["prog", "x", "extra"].getD 1 "") :: help_lines [dummy_cmd]) []) :=
  C2_arity_mismatch_prints_diag_and_help [dummy_cmd] ["prog", "x", "extra"] 0 dummy_cmd
    (by decide) rfl rfl (fun j hj => by omega) (by decide)

/-- Claim C6: `run()` matches by exact, case-sensitive string equality of
`command()` against `argv[1]`, scanning the registry in registration order;
the first entry whose name matches (even if later entries bear the same
name) is the one whose `run` is invoked. -/
theorem C6_first_registered_match_wins
    (cmds : List command_base) (prog name : String) (args : List String)
    (i : Nat) (c : command_base) (b : Bool)
    (hget : cmds[i]? = some c) (hname : c.command = name)
    (hfirst : ∀ j, j < i → ∀ d, cmds[j]? = some d → d.command ≠ name)
    (harity : c.argumentCount = (args.length : Int))
    (hrun : c.run (prog :: name :: args) = Except.ok b) :
    commandlineinterpreter.run
        (commandlineinterpreter.mk (cmds.map some) (prog :: name :: args)) =
      some (runResult.mk (Except.ok (if b then 0 else 1)) [] [i]) :=
  run_dispatch_of_first cmds prog name args i c b hget hname hfirst harity hrun

/-- Witness for C6: two registered commands share the name `"x"`; the
first-registered one (index 0, whose `run` succeeds) is invoked, not the
second (whose `run` fails). -/
theorem C6_witness :
    commandlineinterpreter.run
        (commandlineinterpreter.mk
          ([dummy_cmd, command_base.mk "x" 0 (fun _ => "") (fun _ => Except.ok false)].map some)
          ["prog", "x"]) =
      some (runResult.mk (Except.ok (if true then 0 else 1)) [] [0]) :=
  C6_first_registered_match_wins
    [dummy_cmd, command_base.mk "x" 0 (fun _ => "") (fun _ => Except.ok false)]
    "prog" "x" [] 0 dummy_cmd true rfl rfl (fun j hj => by omega) (by decide) rfl

/-- Claim C1: with pairwise-distinct registered names, `run()` on
`argv = [prog, name, a1..an]` where `name` is the name of registered
command `c` and `n = c.arity()` invokes exactly `c`'s `run`, exactly once,
and returns 0 when it reports success and 1 otherwise. -/
theorem C1_run_invokes_unique_match_once
    (cmds : List command_base) (prog name : String) (args : List String)
    (c : command_base) (b : Bool)
    (hdist : cmds.Pairwise (fun a d => a.command ≠ d.command))
    (hmem : c ∈ cmds) (hname : c.command = name)
    (harity : c.argumentCount = (args.length : Int))
    (hrun : c.run (prog :: name :: args) = Except.ok b) :
    ∃ i, cmds[i]? = some c ∧
      commandlineinterpreter.run
          (commandlineinterpreter.mk (cmds.map some) (prog :: name :: args)) =
        some (runResult.mk (Except.ok (if b then 0 else 1)) [] [i]) := by
  obtain ⟨pre, post, rfl⟩ := List.append_of_mem hmem
  have hpre : ∀ a ∈ pre, a.command ≠ name := by
    intro a ha
    have := (List.pairwise_append.mp hdist).2.2 a ha c (List.mem_cons_self c post)
    rw [hname] at this
    exact this
  have hget : (pre ++ c :: post)[pre.length]? = some c := by
    rw [List.getElem?_append_right (Nat.le_refl pre.length)]
    simp
  have hfirst : ∀ j, j < pre.length → ∀ d, (pre ++ c :: post)[j]? = some d →
      d.command ≠ name := by
    intro j hj d hd
    rw [List.getElem?_append, if_pos hj] at hd
    have hdm : d ∈ pre := by
      obtain ⟨hlt, rfl⟩ := List.getElem?_eq_some_iff.mp hd
      exact List.getElem_mem hlt
    exact hpre d hdm
  exact ⟨pre.length, hget,
    run_dispatch_of_first (pre ++ c :: post) prog name args pre.length c b
      hget hname hfirst harity hrun⟩

/-- Witness for C1: a two-command registry with distinct names `"x"`,
`"y"`; invoking `prog y` runs the `"y"` command (at index 1) once, which
fails, so the exit code is 1. -/
theorem C1_witness :
    ∃ i, [dummy_cmd, command_base.mk "y" 0 (fun _ => "") (fun _ => Except.ok false)][i]? =
        some (command_base.mk "y" 0 (fun _ => "") (fun _ => Except.ok false)) ∧
      commandlineinterpreter.run
          (commandlineinterpreter.mk
            ([dummy_cmd, command_base.mk "y" 0 (fun _ => "") (fun _ => Except.ok false)].map some)
            ["prog", "y"]) =
        some (runResult.mk (Except.ok (if false then 0 else 1)) [] [i]) :=
  C1_run_invokes_unique_match_once
    [dummy_cmd, command_base.mk "y" 0 (fun _ => "") (fun _ => Except.ok false)]
    "prog" "y" [] (command_base.mk "y" 0 (fun _ => "") (fun _ => Except.ok false)) false
    (by constructor
        · intro d hd
          simp only [List.mem_cons, List.not_mem_nil, or_false] at hd
          subst hd
          decide
        · constructor
          · intro d hd
            simp at hd
          · constructor)
    (by simp) rfl (by decide) rfl

/-- Claim C10: the `help` listing depends only on each command's name, its
`argumentCount()`, and its `argumentName(i)` for `0 ≤ i < argumentCount()`:
two registries that agree on exactly those data print identical help text,
so `help` never queries an argument label outside the declared range. -/
theorem C10_help_queries_only_in_range_labels
    (cmds cmds' : List command_base) (argv : List String)
    (h : List.Forall₂ (fun c d =>
          c.command = d.command ∧ c.argumentCount = d.argumentCount ∧
          ∀ i : Int, 0 ≤ i → i < c.argumentCount → c.argumentName i = d.argumentName i)
        cmds cmds') :
    commandlineinterpreter.help (commandlineinterpreter.mk (cmds.map some) argv) =
      commandlineinterpreter.help (commandlineinterpreter.mk (cmds'.map some) argv) := by
  rw [help_map_some, help_map_some]
  unfold help_lines
  refine congrArg some (congrArg _ ?_)
  induction h with
  | nil => rfl
  | @cons a b l1 l2 hcd htail ih =>
      obtain ⟨hn, hc, hl⟩ := hcd
      simp only [List.map_cons]
      rw [ih]
      congr 1
      have hmap : (List.range a.argumentCount.toNat).map
            (fun i => "<" ++ a.argumentName ((i : Nat) : Int) ++ "> ") =
          (List.range a.argumentCount.toNat).map
            (fun i => "<" ++ b.argumentName ((i : Nat) : Int) ++ "> ") := by
        refine List.map_congr_left ?_
        intro i hi
        have hi2 : i < a.argumentCount.toNat := List.mem_range.mp hi
        rw [hl ((i : Nat) : Int) (by omega) (by omega)]
      rw [hn, hmap, hc]

/-- Witness for C10: two single-command registries whose commands agree on
name, arity 1, and the label at index 0, but disagree at the out-of-range
index 1, still print the same help text. -/
theorem C10_witness :
    commandlineinterpreter.help
        (commandlineinterpreter.mk
          ([command_base.mk "w" 1 (fun i => if i = 0 then "a" else "junk1")
              (fun _ => Except.ok true)].map some) ["p"]) =
      commandlineinterpreter.help
        (commandlineinterpreter.mk
          ([command_base.mk "w" 1 (fun i => if i = 0 then "a" else "junk2")
              (fun _ => Except.ok true)].map some) ["p"]) :=
  C10_help_queries_only_in_range_labels
    [command_base.mk "w" 1 (fun i => if i = 0 then "a" else "junk1") (fun _ => Except.ok true)]
    [command_base.mk "w" 1 (fun i => if i = 0 then "a" else "junk2") (fun _ => Except.ok true)]
    ["p"]
    (List.Forall₂.cons
      ⟨rfl, rfl, fun i h0 h1 => by
        have h2 : i < (1 : Int) := h1
        have hi0 : i = 0 := by omega
        subst hi0
        rfl⟩
      List.Forall₂.nil)

/-- An ASCII digit is not C whitespace. -/
theorem digit_not_cspace (c : Char) (h : is_digit_ch c = true) : is_cspace c = false := by
  simp only [is_digit_ch, Bool.and_eq_true, decide_eq_true_eq] at h
  simp only [is_cspace, Bool.or_eq_false_iff, decide_eq_false_iff_not]
  omega

/-- An ASCII digit is neither `'-'` nor `'+'`. -/
theorem digit_not_sign (c : Char) (h : is_digit_ch c = true) : c ≠ '-' ∧ c ≠ '+' := by
  constructor <;> rintro rfl <;> exact absurd h (by decide)

/-- Big-endian digit accumulation agrees with Mathlib's little-endian
`Nat.ofDigits` on the reversed digit list. -/
theorem foldl_digits (ds : List Char) (a : Nat) :
    ds.foldl (fun acc c => 10 * acc + digit_val c) a =
      a * 10 ^ ds.length + Nat.ofDigits 10 (ds.reverse.map digit_val) := by
  induction ds generalizing a with
  | nil => simp
  | cons c rest ih =>
      simp only [List.foldl_cons, List.reverse_cons, List.map_append, List.map_cons,
        List.map_nil, List.length_cons]
      rw [ih, Nat.ofDigits_append]
      simp only [List.length_map, List.length_reverse, Nat.ofDigits_singleton]
      ring

/-- `stoi_core` on an all-digit list whose signed value fits in `int`
returns that value. -/
theorem stoi_core_ok (sgn : Int) (ds : List Char) (hne : ds ≠ [])
    (hds : ∀ c ∈ ds, is_digit_ch c = true) (v : Int)
    (hv : v = sgn * (Nat.ofDigits 10 (ds.reverse.map digit_val) : Nat))
    (hlo : -2147483648 ≤ v) (hhi : v ≤ 2147483647) :
    stoi_core sgn ds = Except.ok v := by
  have hem : ds.isEmpty = false := by
    cases ds with
    | nil => exact absurd rfl hne
    | cons _ _ => rfl
  have hfold : (ds.foldl (fun a c => 10 * a + digit_val c) 0 : Nat) =
      Nat.ofDigits 10 (ds.reverse.map digit_val) := by
    rw [foldl_digits]
    simp
  simp only [stoi_core, List.takeWhile_eq_self_iff.mpr hds, hem, Bool.false_eq_true,
    if_false, hfold, ← hv]
  rw [if_neg]
  simp only [Bool.or_eq_true, decide_eq_true_eq, not_or]
  constructor <;> omega

/-- `stoi_core` throws `std::invalid_argument` whenever its input does not
start with a digit (in particular on the empty input): the digit prefix it
takes is then empty. -/
theorem stoi_core_head_not_digit (sgn : Int) (cs : List Char)
    (h : ∀ c0, cs.head? = some c0 → is_digit_ch c0 = false) :
    stoi_core sgn cs = Except.error parseErr.invalid_argument := by
  have ht : cs.takeWhile is_digit_ch = [] := by
    cases cs with
    | nil => rfl
    | cons c0 rest => simp [List.takeWhile_cons, h c0 rfl]
  simp [stoi_core, ht]

/-- `stoi_core` on an all-digit list whose signed value does not fit in
`int` throws `std::out_of_range`. -/
theorem stoi_core_out_of_range (sgn : Int) (ds : List Char) (hne : ds ≠ [])
    (hds : ∀ c ∈ ds, is_digit_ch c = true) (v : Int)
    (hv : v = sgn * (Nat.ofDigits 10 (ds.reverse.map digit_val) : Nat))
    (hout : v < -2147483648 ∨ 2147483647 < v) :
    stoi_core sgn ds = Except.error parseErr.out_of_range := by
  have hem : ds.isEmpty = false := by
    cases ds with
    | nil => exact absurd rfl hne
    | cons _ _ => rfl
  have hfold : (ds.foldl (fun a c => 10 * a + digit_val c) 0 : Nat) =
      Nat.ofDigits 10 (ds.reverse.map digit_val) := by
    rw [foldl_digits]
    simp
  simp only [stoi_core, List.takeWhile_eq_self_iff.mpr hds, hem, Bool.false_eq_true,
    if_false, hfold, ← hv]
  rw [if_pos]
  simp only [Bool.or_eq_true, decide_eq_true_eq]
  exact hout

/-- Unfolding `stoi` when no leading whitespace gets skipped. -/
theorem stoi_cons (c : Char) (cs : List Char)
    (hdrop : (c :: cs).dropWhile is_cspace = c :: cs) :
    stoi (String.mk (c :: cs)) =
      if c = '-' then stoi_core (-1) cs
      else if c = '+' then stoi_core 1 cs
      else stoi_core 1 (c :: cs) := by
  unfold stoi
  rw [show (String.mk (c :: cs)).data = c :: cs from rfl, hdrop]

/-- `std::stoi` on an optionally signed all-digit string returns the signed
decimal value, provided it fits in `int`. -/
theorem stoi_numeric (sgn ds : List Char)
    (hsgn : sgn = [] ∨ sgn = ['+'] ∨ sgn = ['-'])
    (hne : ds ≠ []) (hds : ∀ c ∈ ds, is_digit_ch c = true) (v : Int)
    (hv : v = (if sgn = ['-'] then (-1 : Int) else 1) *
        (Nat.ofDigits 10 (ds.reverse.map digit_val) : Nat))
    (hlo : -2147483648 ≤ v) (hhi : v ≤ 2147483647) :
    stoi (String.mk (sgn ++ ds)) = Except.ok v := by
  obtain ⟨d0, rest, rfl⟩ : ∃ d0 rest, ds = d0 :: rest := by
    cases ds with
    | nil => exact absurd rfl hne
    | cons d0 rest => exact ⟨d0, rest, rfl⟩
  have hd0 : is_digit_ch d0 = true := hds d0 (List.mem_cons_self _ _)
  have hd0s : ¬ (is_cspace d0 = true) := by
    rw [digit_not_cspace d0 hd0]
    exact Bool.false_ne_true
  have hdrop : (d0 :: rest).dropWhile is_cspace = d0 :: rest := by
    rw [List.dropWhile_cons, if_neg hd0s]
  rcases hsgn with rfl | rfl | rfl
  · have hv1 : v = 1 * (Nat.ofDigits 10 ((d0 :: rest).reverse.map digit_val) : Nat) := by
      simpa using hv
    simp only [List.nil_append]
    rw [stoi_cons d0 rest hdrop, if_neg (digit_not_sign d0 hd0).1,
      if_neg (digit_not_sign d0 hd0).2]
    exact stoi_core_ok 1 (d0 :: rest) hne hds v hv1 hlo hhi
  · have hv1 : v = 1 * (Nat.ofDigits 10 ((d0 :: rest).reverse.map digit_val) : Nat) := by
      simpa using hv
    have hdropp : ('+' :: d0 :: rest).dropWhile is_cspace = '+' :: d0 :: rest := by
      rw [List.dropWhile_cons, if_neg (show ¬ (is_cspace '+' = true) by decide)]
    simp only [List.cons_append, List.nil_append]
    rw [stoi_cons '+' (d0 :: rest) hdropp,
      if_neg (show ('+' : Char) ≠ '-' by decide), if_pos rfl]
    exact stoi_core_ok 1 (d0 :: rest) hne hds v hv1 hlo hhi
  · have hv1 : v = (-1 : Int) * (Nat.ofDigits 10 ((d0 :: rest).reverse.map digit_val) : Nat) := by
      simpa using hv
    have hdropm : ('-' :: d0 :: rest).dropWhile is_cspace = '-' :: d0 :: rest := by
      rw [List.dropWhile_cons, if_neg (show ¬ (is_cspace '-' = true) by decide)]
    simp only [List.cons_append, List.nil_append]
    rw [stoi_cons '-' (d0 :: rest) hdropm, if_pos rfl]
    exact stoi_core_ok (-1) (d0 :: rest) hne hds v hv1 hlo hhi

/-- On an optionally signed all-digit string (no leading whitespace, since
a digit is not whitespace), `stoi` reduces to `stoi_core` with the sign's
value on the digit list. -/
theorem stoi_signed_digits (sgn ds : List Char)
    (hsgn : sgn = [] ∨ sgn = ['+'] ∨ sgn = ['-'])
    (hne : ds ≠ []) (hds : ∀ c ∈ ds, is_digit_ch c = true) :
    stoi (String.mk (sgn ++ ds)) =
      stoi_core (if sgn = ['-'] then (-1 : Int) else 1) ds := by
  obtain ⟨d0, rest, rfl⟩ : ∃ d0 rest, ds = d0 :: rest := by
    cases ds with
    | nil => exact absurd rfl hne
    | cons d0 rest => exact ⟨d0, rest, rfl⟩
  have hd0 : is_digit_ch d0 = true := hds d0 (List.mem_cons_self _ _)
  have hd0s : ¬ (is_cspace d0 = true) := by
    rw [digit_not_cspace d0 hd0]
    exact Bool.false_ne_true
  have hdrop : (d0 :: rest).dropWhile is_cspace = d0 :: rest := by
    rw [List.dropWhile_cons, if_neg hd0s]
  rcases hsgn with rfl | rfl | rfl
  · rw [if_neg (show ¬ ([] : List Char) = ['-'] by decide)]
    simp only [List.nil_append]
    rw [stoi_cons d0 rest hdrop, if_neg (digit_not_sign d0 hd0).1,
      if_neg (digit_not_sign d0 hd0).2]
  · rw [if_neg (show ¬ (['+'] : List Char) = ['-'] by decide)]
    have hdropp : ('+' :: d0 :: rest).dropWhile is_cspace = '+' :: d0 :: rest := by
      rw [List.dropWhile_cons, if_neg (show ¬ (is_cspace '+' = true) by decide)]
    simp only [List.cons_append, List.nil_append]
    rw [stoi_cons '+' (d0 :: rest) hdropp,
      if_neg (show ('+' : Char) ≠ '-' by decide), if_pos rfl]
  · rw [if_pos rfl]
    have hdropm : ('-' :: d0 :: rest).dropWhile is_cspace = '-' :: d0 :: rest := by
      rw [List.dropWhile_cons, if_neg (show ¬ (is_cspace '-' = true) by decide)]
    simp only [List.cons_append, List.nil_append]
    rw [stoi_cons '-' (d0 :: rest) hdropm, if_pos rfl]

/-- `std::stoi` on an optionally signed all-digit string whose value falls
outside the `int` range throws `std::out_of_range`. -/
theorem stoi_numeric_out_of_range (sgn ds : List Char)
    (hsgn : sgn = [] ∨ sgn = ['+'] ∨ sgn = ['-'])
    (hne : ds ≠ []) (hds : ∀ c ∈ ds, is_digit_ch c = true) (v : Int)
    (hv : v = (if sgn = ['-'] then (-1 : Int) else 1) *
        (Nat.ofDigits 10 (ds.reverse.map digit_val) : Nat))
    (hout : v < -2147483648 ∨ 2147483647 < v) :
    stoi (String.mk (sgn ++ ds)) = Except.error parseErr.out_of_range := by
  rw [stoi_signed_digits sgn ds hsgn hne hds]
  exact stoi_core_out_of_range _ ds hne hds v hv hout

/-- `std::stoi` on any non-numeric string throws `std::invalid_argument`:
after skipping leading C whitespace (`hdecomp` names the residue) and at
most one `'-'`/`'+'` sign, no digit follows.  (When no sign was consumed,
`hnosign` excludes a leading sign character, making the decomposition the
one `stoi` takes.) -/
theorem stoi_not_numeric (s : String) (sgn cs : List Char)
    (hdecomp : s.data.dropWhile is_cspace = sgn ++ cs)
    (hsgn : sgn = [] ∨ sgn = ['+'] ∨ sgn = ['-'])
    (hnodigit : ∀ c0, cs.head? = some c0 → is_digit_ch c0 = false)
    (hnosign : sgn = [] → ∀ c0, cs.head? = some c0 → c0 ≠ '-' ∧ c0 ≠ '+') :
    stoi s = Except.error parseErr.invalid_argument := by
  unfold stoi
  rw [hdecomp]
  rcases hsgn with rfl | rfl | rfl
  · simp only [List.nil_append]
    cases cs with
    | nil => rfl
    | cons c0 rest =>
        obtain ⟨h1, h2⟩ := hnosign rfl c0 rfl
        show (if c0 = '-' then stoi_core (-1) rest
              else if c0 = '+' then stoi_core 1 rest
              else stoi_core 1 (c0 :: rest)) = Except.error parseErr.invalid_argument
        rw [if_neg h1, if_neg h2]
        exact stoi_core_head_not_digit 1 (c0 :: rest) hnodigit
  · show (if ('+' : Char) = '-' then stoi_core (-1) cs
          else if ('+' : Char) = '+' then stoi_core 1 cs
          else stoi_core 1 ('+' :: cs)) = Except.error parseErr.invalid_argument
    rw [if_neg (show ('+' : Char) ≠ '-' by decide), if_pos rfl]
    exact stoi_core_head_not_digit 1 cs hnodigit
  · show (if ('-' : Char) = '-' then stoi_core (-1) cs
          else if ('-' : Char) = '+' then stoi_core 1 cs
          else stoi_core 1 ('-' :: cs)) = Except.error parseErr.invalid_argument
    rw [if_pos rfl]
    exact stoi_core_head_not_digit (-1) cs hnodigit

/-- Counterexample to claim C5 as stated: `"2147483648"` is a numeric
string (every character is a decimal digit), yet `get<int>(0)` on it does
not return the parsed integer — `std::stoi` throws `std::out_of_range`
because the value exceeds `INT_MAX`. -/
theorem C5_cex_numeric_string_raises :
    (∀ c ∈ ("2147483648" : String).data, is_digit_ch c = true) ∧
    commandlineinterpreter.get_int
        (commandlineinterpreter.mk [] ["prog", "cmd", "2147483648"]) 0 =
      Except.error parseErr.out_of_range :=
  ⟨by decide, rfl⟩

/-- Claim C5 (amended): `get<int>(i)` parses the raw argument at position
`i + 2`: an optionally signed all-digit string whose value fits in `int`
yields that value; a non-numeric string — one where, after leading C
whitespace and at most one sign, no digit follows — raises
`std::invalid_argument`; an optionally signed all-digit string whose value
falls outside the `int` range raises `std::out_of_range`; and a parse
error raised inside the invoked command's `run` is not caught by the
dispatcher's `run()` — it propagates as `run`'s own result. -/
theorem C5_get_int_parses_and_errors_propagate :
    (∀ (st : commandlineinterpreter) (i : Nat) (sgn ds : List Char) (v : Int),
        st.argv_[i + 2]? = some (String.mk (sgn ++ ds)) →
        (sgn = [] ∨ sgn = ['+'] ∨ sgn = ['-']) → ds ≠ [] →
        (∀ c ∈ ds, is_digit_ch c = true) →
        v = (if sgn = ['-'] then (-1 : Int) else 1) *
              (Nat.ofDigits 10 (ds.reverse.map digit_val) : Nat) →
        -2147483648 ≤ v → v ≤ 2147483647 →
        commandlineinterpreter.get_int st i = Except.ok v) ∧
    (∀ (st : commandlineinterpreter) (i : Nat) (s : String) (sgn cs : List Char),
        st.argv_[i + 2]? = some s →
        s.data.dropWhile is_cspace = sgn ++ cs →
        (sgn = [] ∨ sgn = ['+'] ∨ sgn = ['-']) →
        (∀ c0, cs.head? = some c0 → is_digit_ch c0 = false) →
        (sgn = [] → ∀ c0, cs.head? = some c0 → c0 ≠ '-' ∧ c0 ≠ '+') →
        commandlineinterpreter.get_int st i = Except.error parseErr.invalid_argument) ∧
    (∀ (st : commandlineinterpreter) (i : Nat) (sgn ds : List Char) (v : Int),
        st.argv_[i + 2]? = some (String.mk (sgn ++ ds)) →
        (sgn = [] ∨ sgn = ['+'] ∨ sgn = ['-']) → ds ≠ [] →
        (∀ c ∈ ds, is_digit_ch c = true) →
        v = (if sgn = ['-'] then (-1 : Int) else 1) *
              (Nat.ofDigits 10 (ds.reverse.map digit_val) : Nat) →
        (v < -2147483648 ∨ 2147483647 < v) →
        commandlineinterpreter.get_int st i = Except.error parseErr.out_of_range) ∧
    (∀ (st : commandlineinterpreter) (i : Nat) (c : command_base) (e : parseErr),
        2 ≤ st.argv_.length →
        find_command st.commands_ (st.argv_.getD 1 "") = some (some (i, c)) →
        c.argumentCount = (st.argv_.length : Int) - 2 →
        c.run st.argv_ = Except.error e →
        commandlineinterpreter.run st = some (runResult.mk (Except.error e) [] [i])) := by
  refine ⟨?_, ?_, ?_, ?_⟩
  · intro st i sgn ds v hget hsgn hne hds hv hlo hhi
    unfold commandlineinterpreter.get_int
    rw [List.getD_eq_getElem?_getD, hget, Option.getD_some]
    exact stoi_numeric sgn ds hsgn hne hds v hv hlo hhi
  · intro st i s sgn cs hget hdecomp hsgn hnodigit hnosign
    unfold commandlineinterpreter.get_int
    rw [List.getD_eq_getElem?_getD, hget, Option.getD_some]
    exact stoi_not_numeric s sgn cs hdecomp hsgn hnodigit hnosign
  · intro st i sgn ds v hget hsgn hne hds hv hout
    unfold commandlineinterpreter.get_int
    rw [List.getD_eq_getElem?_getD, hget, Option.getD_some]
    exact stoi_numeric_out_of_range sgn ds hsgn hne hds v hv hout
  · intro st i c e h2 hfind hargc hrun
    have hlen : ¬ st.argv_.length < 2 := by omega
    have hfind2 : find_command st.commands_ (st.argv_[1]?.getD "") = some (some (i, c)) := by
      rw [← List.getD_eq_getElem?_getD]
      exact hfind
    simp only [commandlineinterpreter.run, hfind2, hargc, hrun]
    simp [hlen]
    rw [hfind2]
    simp [hargc, hrun]

/-- Witness for C5 (amended), applying the parsing conjunct at a concrete
dispatcher state holding the positional argument `"42"`. -/
theorem C5_witness :
    commandlineinterpreter.get_int
        (commandlineinterpreter.mk [] ["p", "c", "42"]) 0 = Except.ok 42 :=
  C5_get_int_parses_and_errors_propagate.1
    (commandlineinterpreter.mk [] ["p", "c", "42"]) 0 [] ['4', '2'] 42
    (by decide) (Or.inl rfl) (by decide) (by decide) (by decide) (by decide) (by decide)
